import Mathlib

/- Verification of the apiserver_req_quantifier metrics aggregator (cmd/quant.go).
   Text is embedded as lists of characters; Go byte strings in the relevant
   inputs are ASCII, so this representation is faithful.  Each definition below
   names the Go function or code block it translates. -/

/-- Text is modelled as a list of characters (Go strings over ASCII input). -/
abbrev Str := List Char

/-- Convenience conversion from a Lean string literal to the character-list model. -/
def chars (s : String) : Str := s.data

/-- The character `\x7b` (opening curly brace), used by parseLine. -/
def lbrace : Char := '\x7b'

/-- The character `\x7d` (closing curly brace), used by parseLine. -/
def rbrace : Char := '\x7d'

/-- Models Go strings.HasPrefix(s, p). -/
def strStartsWith : Str → Str → Bool
  | _, [] => true
  | [], _ :: _ => false
  | c :: s, p :: ps => (c == p) && strStartsWith s ps

/-- Models Go strings.Split(s, sep) for a one-character separator.
    Always returns a non-empty list, like the Go function. -/
def splitChar (sep : Char) : Str → List Str
  | [] => [[]]
  | c :: s =>
    if c == sep then [] :: splitChar sep s
    else
      match splitChar sep s with
      | [] => [[c]]
      | t :: ts => (c :: t) :: ts

/-- Whitespace characters trimmed by Go strings.TrimSpace (ASCII subset). -/
def isSpaceChar (c : Char) : Bool :=
  (c == ' ') || (c == '\t') || (c == '\n') || (c == '\r') ||
  (c == (Char.ofNat 11)) || (c == (Char.ofNat 12))

/-- Drops leading whitespace characters. -/
def trimLeft : Str → Str
  | [] => []
  | c :: s => if isSpaceChar c then trimLeft s else c :: s

/-- Models Go strings.TrimSpace for ASCII text. -/
def trimSpace (s : Str) : Str :=
  ((trimLeft s).reverse |> trimLeft).reverse

/-- Decimal digit value of a character, if it is a digit. -/
def digitVal (c : Char) : Option Nat :=
  if 48 ≤ c.toNat ∧ c.toNat ≤ 57 then some (c.toNat - 48) else none

/-- Accumulates the base-10 value of a digit string; fails on a non-digit. -/
def digitsValAux : Str → Nat → Option Nat
  | [], acc => some acc
  | c :: s, acc =>
    match digitVal c with
    | none => none
    | some d => digitsValAux s (acc * 10 + d)

/-- Base-10 value of a non-empty all-digit string; fails otherwise. -/
def digitsVal : Str → Option Nat
  | [] => none
  | s => digitsValAux s 0

/-- The exact (unbounded) integer denoted by a Go base-10 integer literal:
    an optional sign followed by at least one digit.  This is the number
    syntax accepted by strconv.ParseInt(s, 10, _), before any range check. -/
def goParseIntVal : Str → Option Int
  | [] => none
  | c :: s =>
    if c == '+' then (digitsVal s).map (fun n => (n : Int))
    else if c == '-' then (digitsVal s).map (fun n => -(n : Int))
    else (digitsVal (c :: s)).map (fun n => (n : Int))

/-- Smallest value representable in a signed 32-bit integer. -/
def int32Min : Int := -(2 ^ 31)

/-- Largest value representable in a signed 32-bit integer. -/
def int32Max : Int := 2 ^ 31 - 1

/-- Models Go strconv.ParseInt(s, 10, 32): base-10 syntax plus the
    32-bit range check (out-of-range values are an error). -/
def goParseInt32 (s : Str) : Option Int :=
  match goParseIntVal s with
  | none => none
  | some v => if int32Min ≤ v ∧ v ≤ int32Max then some v else none

/-- Models the ApiserverReq struct of cmd/quant.go (lines 190-195).
    totalReqCount is an int64 in Go, modelled as an unbounded Int; all values
    stored into it by the program come from a 32-bit-checked parse. -/
structure ApiserverReq where
  clientName : Str
  totalReqCount : Int
  resources : List Str
  verbs : List Str
deriving DecidableEq

/-- The literal key "client". -/
def strClient : Str := chars ("client")

/-- The literal key "resource". -/
def strResource : Str := chars ("resource")

/-- The literal key "verb". -/
def strVerb : Str := chars ("verb")

/-- Models one iteration of the label-field loop in parseLine
    (cmd/quant.go lines 285-300): split the field on `=`; with fewer than two
    segments skip it, otherwise dispatch on the key.  Values are taken
    literally (including any quote characters). -/
def parseField (r : ApiserverReq) (field : Str) : ApiserverReq :=
  match splitChar '=' field with
  | k :: v :: _ =>
    if k = strClient then { r with clientName := v }
    else if k = strResource then { r with resources := [v] }
    else if k = strVerb then { r with verbs := [v] }
    else r
  | _ => r

/-- Models the counter extraction of parseLine (cmd/quant.go lines 272-278):
    when the split on `\x7d` produced at least two segments, the second segment
    is trimmed and parsed as a base-10 32-bit integer; with a single segment
    (no `\x7d` in the line) the count keeps its zero value and no error occurs. -/
def parseCount : List Str → Option Int
  | [] => some 0
  | e1 :: _ => goParseInt32 (trimSpace e1)

/-- Models parseLine (cmd/quant.go lines 266-303).  Returns none exactly when
    the Go function returns a nil record with an error. -/
def parseLine (line : Str) : Option ApiserverReq :=
  match splitChar rbrace line with
  | [] => none
  | e0 :: rest =>
    match parseCount rest with
    | none => none
    | some count =>
      match splitChar lbrace e0 with
      | [] => none
      | [_] => none
      | _ :: b1 :: _ =>
        some ((splitChar ',' b1).foldl parseField
          { clientName := [], totalReqCount := count, resources := [], verbs := [] })

/-- The literal prefix "# TYPE" tested first in quantify's scan loop. -/
def strTYPE : Str := chars ("# TYPE")

/-- The literal prefix "# HELP" delimiting metric sections. -/
def strHELP : Str := chars ("# HELP")

/-- The literal prefix "# HELP apiserver_request_count" that opens the
    target metric section. -/
def strHELPTarget : Str := chars ("# HELP apiserver_request_count")

/-- Models the map-update block of quantify (cmd/quant.go lines 250-256):
    if a record with the same clientName exists, add the count and append the
    verbs and resources; otherwise insert the new record.  The Go map is
    modelled as a list of records keyed by clientName, in first-encounter
    order. -/
def insertReq : List ApiserverReq → ApiserverReq → List ApiserverReq
  | [], req => [req]
  | r :: rs, req =>
    if r.clientName = req.clientName then
      { r with totalReqCount := r.totalReqCount + req.totalReqCount,
               verbs := r.verbs ++ req.verbs,
               resources := r.resources ++ req.resources } :: rs
    else r :: insertReq rs req

/-- Models the line loop of quantify (cmd/quant.go lines 226-257), with the
    running shouldRecord flag and accumulated records.  A `# HELP` line seen
    while recording returns immediately (the Go break). -/
def quantLoop : List Str → Bool → List ApiserverReq → List ApiserverReq
  | [], _, reqs => reqs
  | line :: rest, sr, reqs =>
    if strStartsWith line strTYPE then quantLoop rest sr reqs
    else if strStartsWith line strHELP then
      if sr then reqs
      else quantLoop rest (strStartsWith line strHELPTarget) reqs
    else if sr then
      match parseLine line with
      | none => quantLoop rest sr reqs
      | some req =>
        if req.clientName = [] then quantLoop rest sr reqs
        else quantLoop rest sr (insertReq reqs req)
    else quantLoop rest sr reqs

/-- quantify restricted to an already-split list of lines. -/
def quantifyLines (ls : List Str) : List ApiserverReq :=
  quantLoop ls false []

/-- Models quantify (cmd/quant.go lines 221-264): split the scrape text on
    newlines and run the scan loop.  The Go function returns the map values in
    unspecified map-iteration order; this model returns them in
    first-encounter order, and claims sensitive to that order quantify over
    permutations of this list explicitly. -/
def quantify (data : Str) : List ApiserverReq :=
  quantifyLines (splitChar '\n' data)

/-- Control state of quantify's scan: mirrors quantLoop but tracks only the
    shouldRecord flag; none means the scan stopped early (the Go break on a
    `# HELP` line seen while recording). -/
def ctl : List Str → Bool → Option Bool
  | [], sr => some sr
  | line :: rest, sr =>
    if strStartsWith line strTYPE then ctl rest sr
    else if strStartsWith line strHELP then
      if sr then none
      else ctl rest (strStartsWith line strHELPTarget)
    else ctl rest sr

/-- The sequence of successfully parsed, valid records (non-empty clientName)
    that quantify's scan accepts within the target metric section, in line
    order: same control flow as quantLoop, collecting the records it would
    fold into the map. -/
def sectionRecords : List Str → Bool → List ApiserverReq
  | [], _ => []
  | line :: rest, sr =>
    if strStartsWith line strTYPE then sectionRecords rest sr
    else if strStartsWith line strHELP then
      if sr then []
      else sectionRecords rest (strStartsWith line strHELPTarget)
    else if sr then
      match parseLine line with
      | none => sectionRecords rest sr
      | some req =>
        if req.clientName = [] then sectionRecords rest sr
        else req :: sectionRecords rest sr
    else sectionRecords rest sr

/-- The valid record contributed by one line while recording is on:
    none for `# TYPE` lines, parse failures, and records with an empty
    clientName. -/
def dataRecord (line : Str) : Option ApiserverReq :=
  if strStartsWith line strTYPE then none
  else
    match parseLine line with
    | none => none
    | some req => if req.clientName = [] then none else some req

/-- Looks up the accumulated record for a client name (models Go map lookup
    on the list representation). -/
def lookupReq : List ApiserverReq → Str → Option ApiserverReq
  | [], _ => none
  | r :: rs, c => if r.clientName = c then some r else lookupReq rs c

/-- The aggregated total request count of client c (0 if absent). -/
def clientTotal (c : Str) (rs : List ApiserverReq) : Int :=
  match lookupReq rs c with
  | some r => r.totalReqCount
  | none => 0

/-- Models ApiserverReqList.Less (cmd/quant.go lines 211-213):
    entry a precedes entry b when a has the strictly larger count. -/
def apiserverReqLess (a b : ApiserverReq) : Bool :=
  b.totalReqCount < a.totalReqCount

/-- Inserts a record into an already ranked list, after every entry whose
    count is at least as large: one step of the insertion sort that
    sort.Sort performs with ApiserverReqList.Less on small slices. -/
def insertDesc : List ApiserverReq → ApiserverReq → List ApiserverReq
  | [], a => [a]
  | b :: l, a => if apiserverReqLess a b then a :: b :: l else b :: insertDesc l a

/-- Models sort.Sort(quantifiedData) (cmd/quant.go line 80) with
    ApiserverReqList.Less: a deterministic sort that orders by descending
    totalReqCount and keeps the input order of equal counts, as Go's
    insertion sort does on small slices.  The input order itself comes from
    Go map iteration, which is unspecified; theorems about the ranked output
    therefore quantify over permutations of the aggregated list. -/
def rank (l : List ApiserverReq) : List ApiserverReq :=
  l.foldl insertDesc []

/-- The ordering relation of the ranked output: non-increasing counts. -/
def rNonInc (a b : ApiserverReq) : Prop :=
  b.totalReqCount ≤ a.totalReqCount

/-- Models the kubeconfigContextInfo struct (cmd/quant.go lines 45-47). -/
structure KubeconfigContextInfo where
  cluster : String
deriving DecidableEq

/-- Models the kubeconfigContext struct (cmd/quant.go lines 41-44). -/
structure KubeconfigContext where
  context : KubeconfigContextInfo
  name : String
deriving DecidableEq

/-- Models the kubeconfigClusterInfo struct (cmd/quant.go lines 37-39). -/
structure KubeconfigClusterInfo where
  server : String
deriving DecidableEq

/-- Models the kubeconfigCluster struct (cmd/quant.go lines 33-36). -/
structure KubeconfigCluster where
  cluster : KubeconfigClusterInfo
  name : String
deriving DecidableEq

/-- Models the kubeconfig struct (cmd/quant.go lines 27-31), as produced by a
    successful yaml.Unmarshal (missing fields become zero values). -/
structure Kubeconfig where
  currentContext : String
  contexts : List KubeconfigContext
  clusters : List KubeconfigCluster
deriving DecidableEq

/-- Outcome of the side-fetch decision logic: either a descriptive error sent
    on the result channel, or the launch of the remote ssh command against the
    resolved host.  Each uptimeAsync code path sends exactly one result and
    returns, which this single return value models. -/
inductive UptimeStep where
  | err (msg : String)
  | runCmd (host : Str)
deriving DecidableEq

/-- Models the context-search loop of uptimeAsync (cmd/quant.go
    lines 133-139): first context whose name equals the current context. -/
def findContext (ctxs : List KubeconfigContext) (name : String) : Option KubeconfigContext :=
  ctxs.find? (fun ctx => ctx.name == name)

/-- Models the cluster-search loop of uptimeAsync (cmd/quant.go
    lines 145-151): server of the first cluster whose name matches, or the
    empty string when none matches (the Go zero value checked afterwards). -/
def findClusterServer (cs : List KubeconfigCluster) (name : String) : String :=
  match cs.find? (fun cl => cl.name == name) with
  | some cl => cl.cluster.server
  | none => ""

/-- Models Go strings.Split(s, sep) for the three-character separator used on
    the cluster server URL (cmd/quant.go line 157). -/
def splitURL : Str → List Str
  | [] => [[]]
  | ':' :: '/' :: '/' :: rest => [] :: splitURL rest
  | c :: rest =>
    match splitURL rest with
    | [] => [[c]]
    | t :: ts => (c :: t) :: ts

/-- Models the decision logic of uptimeAsync (cmd/quant.go lines 107-172) on
    an already unmarshalled kubeconfig, through the validation chain up to the
    launch of the remote command.  Reading and unmarshalling the file, and the
    execution of the command itself, are the I/O boundary and are outside this
    model; each modelled path is one of the single channel sends of the Go
    function. -/
def uptimeAsync (config : Kubeconfig) : UptimeStep :=
  if config.currentContext = "" then
    UptimeStep.err ("invalid kubeconfig: empty current-context field")
  else if config.contexts = [] then
    UptimeStep.err ("invalid kubeconfig: no contexts found")
  else if config.clusters = [] then
    UptimeStep.err ("invalid kubeconfig: no clusters found")
  else
    match findContext config.contexts config.currentContext with
    | none =>
      UptimeStep.err ("invalid kubeconfig: unable to find current context (" ++
        config.currentContext ++ ") in provided list of contexts")
    | some ctx =>
      let clusterName := findClusterServer config.clusters ctx.context.cluster
      if clusterName = "" then
        UptimeStep.err ("invalid kubeconfig: unable to find current cluster (" ++
          ctx.context.cluster ++ ") in provided list of clusters")
      else
        match splitURL clusterName.data with
        | [] =>
          UptimeStep.err ("malformed cluster hostname: expecting http(s)://host.name:port format, but got " ++ clusterName)
        | [_] =>
          UptimeStep.err ("malformed cluster hostname: expecting http(s)://host.name:port format, but got " ++ clusterName)
        | _ :: seg1 :: _ =>
          match splitChar ':' seg1 with
          | [] =>
            UptimeStep.err ("malformed cluster hostname: expecting http(s)://host.name:port format, but got " ++ clusterName)
          | host :: _ => UptimeStep.runCmd host

/-- Models the startup sequence of main (cmd/quant.go lines 305-316).
    flag.StringVar registers the kubeconfig flag with default value "";
    the environment fallback and the fail-fast emptiness check run BEFORE
    flag.Parse, so a value supplied via the command-line flag is not yet
    visible when the check executes.  Returns none when main panics
    (fail-fast), otherwise the kubeconfig path in effect after flag.Parse. -/
def startupKubeconfig (flagValue envValue : Option String) : Option String :=
  let v0 : String := ""
  let v1 := if v0 = "" then envValue.getD ("") else v0
  if v1 = "" then none
  else some (flagValue.getD v1)

/-- State of the goroutine running uptimeAsync: still computing, ready to
    send its single result, or the send completed. -/
inductive SenderState where
  | computing
  | ready
  | sent
deriving DecidableEq

/-- State of the request handler at the select on the result channel
    (cmd/quant.go lines 85-94): waiting in the select, received the result,
    or took the 500ms timeout branch (after which it never receives again). -/
inductive ReceiverState where
  | waiting
  | gotResult
  | timedOut
deriving DecidableEq

/-- Joint state of the one-shot handoff between uptimeAsync and ServeHTTP,
    with the number of values currently buffered in the channel. -/
structure HandoffState where
  sender : SenderState
  receiver : ReceiverState
  buffered : Nat
deriving DecidableEq

/-- Capacity of the result channel: make(chan *uptimeResult) at
    cmd/quant.go line 60 creates an unbuffered channel. -/
def uptimeChanCapacity : Nat := 0

/-- Transition relation of the handoff, following Go channel semantics:
    a send on the channel completes either by rendezvous with the waiting
    receiver or by placing the value into free buffer space; the receiver
    leaves the select forever when the timeout fires. -/
inductive HandoffStep : HandoffState → HandoffState → Prop where
  | finishCompute (r : ReceiverState) (b : Nat) :
      HandoffStep ⟨SenderState.computing, r, b⟩ ⟨SenderState.ready, r, b⟩
  | rendezvous (b : Nat) :
      HandoffStep ⟨SenderState.ready, ReceiverState.waiting, b⟩
        ⟨SenderState.sent, ReceiverState.gotResult, b⟩
  | bufferedSend (r : ReceiverState) (b : Nat) (h : b < uptimeChanCapacity) :
      HandoffStep ⟨SenderState.ready, r, b⟩ ⟨SenderState.sent, r, b + 1⟩
  | timeout (s : SenderState) (b : Nat) :
      HandoffStep ⟨s, ReceiverState.waiting, b⟩ ⟨s, ReceiverState.timedOut, b⟩

/-- Initial handoff state for one request: goroutine computing, handler
    waiting in the select, empty channel. -/
def handoffInit : HandoffState :=
  ⟨SenderState.computing, ReceiverState.waiting, 0⟩

/-- The state reached when the select timeout fires before the side-fetch
    finished: the goroutine then has its result ready with nobody waiting. -/
def handoffBlocked : HandoffState :=
  ⟨SenderState.ready, ReceiverState.timedOut, 0⟩

/-- The four-line scenario input of the specification: target HELP line,
    TYPE line, and two data lines for the same client. -/
def scenarioInput : Str :=
  chars ("# HELP apiserver_request_count foo\n# TYPE apiserver_request_count counter\napiserver_request_count\x7bclient=\"a\",resource=\"pods\",verb=\"get\"\x7d 3\napiserver_request_count\x7bclient=\"a\",resource=\"nodes\",verb=\"list\"\x7d 2")

/-- A scrape with two distinct clients having equal counts, used to examine
    the ordering of ties in the ranked output. -/
def tieInput : Str :=
  chars ("# HELP apiserver_request_count h\napiserver_request_count\x7bclient=x\x7d 1\napiserver_request_count\x7bclient=y\x7d 1")

/-- The "# TYPE" prefix as an explicit character list. -/
theorem strTYPE_eq : strTYPE = ['#', ' ', 'T', 'Y', 'P', 'E'] := rfl

/-- The "# HELP" prefix as an explicit character list. -/
theorem strHELP_eq : strHELP = ['#', ' ', 'H', 'E', 'L', 'P'] := rfl

/-- A line starting with "# HELP" does not start with "# TYPE": the two
    branch guards of quantify's loop are mutually exclusive. -/
theorem help_not_type (s : Str) (h : strStartsWith s strHELP = true) :
    strStartsWith s strTYPE = false := by
  rw [strHELP_eq] at h
  rw [strTYPE_eq]
  rcases s with _ | ⟨c0, _ | ⟨c1, _ | ⟨c2, s⟩⟩⟩
  · simp [strStartsWith] at h
  · simp [strStartsWith] at h
  · simp [strStartsWith] at h
  · simp only [strStartsWith, Bool.and_eq_true, beq_iff_eq] at h
    obtain ⟨rfl, rfl, rfl, -⟩ := h
    simp [strStartsWith]

/-- The label-field loop never modifies the counter of a record. -/
theorem parseField_count (r : ApiserverReq) (f : Str) :
    (parseField r f).totalReqCount = r.totalReqCount := by
  cases hq : splitChar '=' f with
  | nil => simp [parseField, hq]
  | cons k l =>
    cases l with
    | nil => simp [parseField, hq]
    | cons v t =>
      simp only [parseField, hq]
      split_ifs <;> rfl

/-- Folding the label-field loop over every field keeps the counter that the
    record was seeded with. -/
theorem foldl_parseField_count (fs : List Str) (r : ApiserverReq) :
    (fs.foldl parseField r).totalReqCount = r.totalReqCount := by
  induction fs generalizing r with
  | nil => rfl
  | cons f fs ih => rw [List.foldl_cons, ih, parseField_count]

/-- Every counter produced by parseCount lies in the signed 32-bit range. -/
theorem parseCount_range (rest : List Str) (c : Int) (h : parseCount rest = some c) :
    int32Min ≤ c ∧ c ≤ int32Max := by
  cases rest with
  | nil =>
    simp [parseCount] at h
    subst h
    constructor <;> decide
  | cons e1 t =>
    simp only [parseCount, goParseInt32] at h
    split at h
    · exact Option.noConfusion h
    · split at h
      · rename_i hrange
        injection h with h
        subst h
        exact hrange
      · exact Option.noConfusion h

/-- A record returned by parseLine carries exactly the counter that
    parseCount extracted from the split on the closing brace. -/
theorem parseLine_count (line : Str) (r : ApiserverReq) (h : parseLine line = some r) :
    ∃ e0 rest, splitChar rbrace line = e0 :: rest ∧ parseCount rest = some r.totalReqCount := by
  unfold parseLine at h
  split at h
  · exact Option.noConfusion h
  · rename_i e0 rest hs
    refine ⟨e0, rest, hs, ?_⟩
    split at h
    · exact Option.noConfusion h
    · rename_i count hc
      split at h
      · exact Option.noConfusion h
      · exact Option.noConfusion h
      · injection h with h
        rw [← h, foldl_parseField_count]
        exact hc

/-- Claim C2 (counterexample): on the four-line scenario input, the single
    aggregated client is named `"a"` — three characters including the literal
    quote marks, because parseLine takes label values verbatim — so no
    aggregated client named `a` exists, contrary to the claim. -/
theorem c2_scenario_client_is_quoted :
    (quantify scenarioInput).map (fun r => r.clientName) = [chars ("\"a\"")] ∧
    chars ("\"a\"") ≠ chars ("a") := by
  constructor
  · rfl
  · decide

/-- Claim C2 (amended): the scenario input yields exactly one aggregated
    client, named `"a"` (quotes retained), with totalRequestCount 5,
    resources `"pods"`, `"nodes"` and verbs `"get"`, `"list"` (each value
    keeping its surrounding quote characters, in order of appearance). -/
theorem c2_amended_scenario :
    quantify scenarioInput =
      [{ clientName := chars ("\"a\""), totalReqCount := 5,
         resources := [chars ("\"pods\""), chars ("\"nodes\"")],
         verbs := [chars ("\"get\""), chars ("\"list\"")] }] := by
  rfl

/-- Claim C3 (counterexample): a data line containing no `\x7d` at all is not
    rejected: parseLine returns a record (with counter 0 and a client name
    absorbing the trailing text) instead of a malformed-line error. -/
theorem c3_no_rbrace_no_error :
    ¬ rbrace ∈ chars ("m\x7bclient=x 1") ∧
    parseLine (chars ("m\x7bclient=x 1")) =
      some { clientName := chars ("x 1"), totalReqCount := 0,
             resources := [], verbs := [] } := by
  constructor
  · decide
  · rfl

/-- Claim C3 (amended): parseLine splits the line at every `\x7d` and takes
    the segment between the first `\x7d` and the next one (or the end of the
    line) as the counter text: trimmed and parsed as a base-10 integer in the
    signed 32-bit range, with a parse failure making parseLine fail; when the
    line contains no `\x7d` at all, no counter is parsed, no error is raised
    for it, and any record returned carries counter 0. -/
theorem c3_amended_counter (line : Str) :
    (∀ e0 e1 rest, splitChar rbrace line = e0 :: e1 :: rest →
        goParseInt32 (trimSpace e1) = none → parseLine line = none) ∧
    (∀ e0 e1 rest n, splitChar rbrace line = e0 :: e1 :: rest →
        goParseInt32 (trimSpace e1) = some n →
        ∀ r, parseLine line = some r → r.totalReqCount = n) ∧
    (∀ e0, splitChar rbrace line = [e0] →
        ∀ r, parseLine line = some r → r.totalReqCount = 0) := by
  refine ⟨?_, ?_, ?_⟩
  · intro e0 e1 rest hs hp
    unfold parseLine
    rw [hs]
    simp [parseCount, hp]
  · intro e0 e1 rest n hs hp r hr
    obtain ⟨e0x, restx, hsx, hcx⟩ := parseLine_count line r hr
    rw [hs] at hsx
    injection hsx with h1 h2
    subst h2
    simp only [parseCount, hp] at hcx
    injection hcx with hcx
    exact hcx.symm
  · intro e0 hs r hr
    obtain ⟨e0x, restx, hsx, hcx⟩ := parseLine_count line r hr
    rw [hs] at hsx
    injection hsx with h1 h2
    subst h2
    simp only [parseCount] at hcx
    injection hcx with hcx
    exact hcx.symm

/-- Claim C3 (amended, witness): concrete instances of the amended behavior:
    a line whose first-to-second-brace segment is unparsable fails, and the
    braceless line from the counterexample indeed carries counter 0. -/
theorem c3_amended_counter_witness :
    parseLine (chars ("m\x7ba=1\x7dxyz")) = none := by
  exact (c3_amended_counter (chars ("m\x7ba=1\x7dxyz"))).1
    (chars ("m\x7ba=1")) (chars ("xyz")) [] (by rfl) (by rfl)

/-- Claim C10: every record parseLine accepts has its counter in the signed
    32-bit range (-2^31 ≤ count < 2^31) even though the struct field is
    64-bit, and any data line whose trailing counter value (the base-10
    integer denoted by the text between the first `\x7d` and the next one)
    lies outside that range is rejected with an error. -/
theorem c10_counter_int32 :
    (∀ line r, parseLine line = some r →
        int32Min ≤ r.totalReqCount ∧ r.totalReqCount < 2 ^ 31) ∧
    (∀ line e0 e1 rest v, splitChar rbrace line = e0 :: e1 :: rest →
        goParseIntVal (trimSpace e1) = some v →
        (v < int32Min ∨ int32Max < v) → parseLine line = none) := by
  constructor
  · intro line r h
    obtain ⟨e0, rest, hs, hc⟩ := parseLine_count line r h
    obtain ⟨h1, h2⟩ := parseCount_range rest r.totalReqCount hc
    refine ⟨h1, ?_⟩
    have h3 : int32Max = 2 ^ 31 - 1 := rfl
    omega
  · intro line e0 e1 rest v hs hv hout
    unfold parseLine
    rw [hs]
    have hnone : goParseInt32 (trimSpace e1) = none := by
      unfold goParseInt32
      rw [hv]
      show (if int32Min ≤ v ∧ v ≤ int32Max then some v else none) = none
      have hcon : ¬ (int32Min ≤ v ∧ v ≤ int32Max) := by
        rcases hout with h | h
        · intro hc
          exact absurd hc.1 (not_le.mpr h)
        · intro hc
          exact absurd hc.2 (not_le.mpr h)
      rw [if_neg hcon]
    simp [parseCount, hnone]

/-- Claim C10 (witness): the in-range line `m\x7bclient=x\x7d 5` is accepted with
    its counter in range, and the out-of-range counter 2147483648 = 2^31 is
    rejected. -/
theorem c10_counter_int32_witness :
    (int32Min ≤ (5 : Int) ∧ (5 : Int) < 2 ^ 31) ∧
    parseLine (chars ("m\x7ba=b\x7d 2147483648")) = none := by
  constructor
  · exact c10_counter_int32.1 (chars ("m\x7bclient=x\x7d 5"))
      { clientName := chars ("x"), totalReqCount := 5, resources := [], verbs := [] }
      (by rfl)
  · exact c10_counter_int32.2 (chars ("m\x7ba=b\x7d 2147483648"))
      (chars ("m\x7ba=b")) (chars (" 2147483648")) [] 2147483648
      (by rfl) (by rfl) (by right; decide)

/-- Claim C8: models the startup bug — the fail-fast emptiness check in main
    runs before flag.Parse, so providing only the command-line flag (with the
    environment variable unset) still panics (modelled as none), although the
    claim says startup proceeds. -/
theorem c8_flag_alone_still_panics :
    startupKubeconfig (some ("/etc/quant/kubeconfig")) none = none := rfl

/-- Claim C7 (counterexample): a configuration that parses successfully and
    has an empty clusters list, but whose current-context is also empty,
    makes the side-fetch report the empty-current-context error, not the
    "no clusters found" error the claim promises for every such input. -/
theorem c7_empty_context_error_first :
    uptimeAsync { currentContext := "", contexts := [], clusters := [] } =
      UptimeStep.err ("invalid kubeconfig: empty current-context field") ∧
    uptimeAsync { currentContext := "", contexts := [], clusters := [] } ≠
      UptimeStep.err ("invalid kubeconfig: no clusters found") := by
  constructor
  · rfl
  · decide

/-- Claim C7 (amended): for every parsed configuration whose current-context
    is non-empty and whose contexts list is non-empty but whose clusters list
    is empty, the side-fetch delivers exactly one result — the descriptive
    "no clusters found" error — and never reaches the remote command. -/
theorem c7_no_clusters_error (cfg : Kubeconfig) (h1 : cfg.currentContext ≠ "")
    (h2 : cfg.contexts ≠ []) (h3 : cfg.clusters = []) :
    uptimeAsync cfg = UptimeStep.err ("invalid kubeconfig: no clusters found") ∧
    ∀ host, uptimeAsync cfg ≠ UptimeStep.runCmd host := by
  have hmain : uptimeAsync cfg =
      UptimeStep.err ("invalid kubeconfig: no clusters found") := by
    unfold uptimeAsync
    rw [if_neg h1, if_neg h2, if_pos h3]
  refine ⟨hmain, ?_⟩
  intro host hcon
  rw [hmain] at hcon
  exact UptimeStep.noConfusion hcon

/-- Claim C7 (amended, witness): concrete configuration with one context,
    a current-context naming it, and no clusters. -/
theorem c7_no_clusters_error_witness :
    uptimeAsync { currentContext := "admin", contexts := [{ context := { cluster := "c1" }, name := "admin" }], clusters := [] } =
      UptimeStep.err ("invalid kubeconfig: no clusters found") :=
  (c7_no_clusters_error _ (by decide) (by decide) rfl).1

/-- Membership in an insertDesc result comes from the inserted element or
    the original list. -/
theorem mem_insertDesc (l : List ApiserverReq) (a x : ApiserverReq)
    (h : x ∈ insertDesc l a) : x = a ∨ x ∈ l := by
  induction l with
  | nil => simpa [insertDesc] using h
  | cons b t ih =>
    simp only [insertDesc] at h
    by_cases hc : apiserverReqLess a b = true
    · rw [if_pos hc] at h
      rcases List.mem_cons.mp h with rfl | h2
      · exact Or.inl rfl
      · exact Or.inr h2
    · rw [if_neg hc] at h
      rcases List.mem_cons.mp h with rfl | h2
      · exact Or.inr (List.mem_cons_self _ _)
      · rcases ih h2 with h3 | h3
        · exact Or.inl h3
        · exact Or.inr (List.mem_cons_of_mem _ h3)

/-- Inserting into a list sorted by non-increasing count keeps it sorted. -/
theorem sorted_insertDesc (l : List ApiserverReq) (a : ApiserverReq)
    (h : List.Sorted rNonInc l) : List.Sorted rNonInc (insertDesc l a) := by
  induction l with
  | nil => simp [insertDesc, rNonInc]
  | cons b t ih =>
    rw [List.sorted_cons] at h
    obtain ⟨hb, ht⟩ := h
    simp only [insertDesc]
    by_cases hc : apiserverReqLess a b = true
    · rw [if_pos hc]
      have hab : b.totalReqCount < a.totalReqCount := by
        simpa [apiserverReqLess] using hc
      rw [List.sorted_cons]
      constructor
      · intro x hx
        rcases List.mem_cons.mp hx with rfl | hx2
        · exact le_of_lt hab
        · exact le_trans (hb x hx2) (le_of_lt hab)
      · exact List.sorted_cons.mpr ⟨hb, ht⟩
    · rw [if_neg hc]
      have hba : a.totalReqCount ≤ b.totalReqCount := by
        simpa [apiserverReqLess, not_lt] using hc
      rw [List.sorted_cons]
      constructor
      · intro x hx
        rcases mem_insertDesc t a x hx with rfl | hx2
        · exact hba
        · exact hb x hx2
      · exact ih ht

/-- Folding insertDesc over any list, starting from a sorted accumulator,
    produces a sorted list. -/
theorem sorted_foldl_insertDesc (l : List ApiserverReq) :
    ∀ acc, List.Sorted rNonInc acc → List.Sorted rNonInc (l.foldl insertDesc acc) := by
  induction l with
  | nil => intro acc h; simpa using h
  | cons a t ih =>
    intro acc h
    rw [List.foldl_cons]
    exact ih _ (sorted_insertDesc acc a h)

/-- Claim C5 (counterexample): with two clients of equal counts, the ranked
    output differs between two admissible orders of the aggregated list (Go
    map iteration order is unspecified and randomized per run), so the output
    sequence of the scrape-aggregate-rank pipeline is not identical across
    runs on identical input. -/
theorem c5_tie_order_not_deterministic :
    ((quantify tieInput).reverse).Perm (quantify tieInput) ∧
    rank ((quantify tieInput).reverse) ≠ rank (quantify tieInput) := by
  constructor
  · exact List.reverse_perm _
  · decide

/-- Claim C5 (amended): whatever order the map iteration hands the aggregated
    clients to the ranker in, the ranked output is ordered by non-increasing
    totalRequestCount; the relative order of clients with equal counts,
    however, follows that unspecified iteration order and is therefore not
    reproducible across runs. -/
theorem c5_rank_sorted_desc (data : Str) (l : List ApiserverReq)
    (_hl : l.Perm (quantify data)) : List.Sorted rNonInc (rank l) := by
  unfold rank
  exact sorted_foldl_insertDesc l [] (by simp)

/-- Claim C5 (amended, witness): the ranked output of the tie scenario, in
    first-encounter order, is sorted by non-increasing count. -/
theorem c5_rank_sorted_desc_witness :
    List.Sorted rNonInc (rank (quantify tieInput)) :=
  c5_rank_sorted_desc tieInput (quantify tieInput) (List.Perm.refl _)

/-- The scan loop of quantify is the fold of the map-update step over the
    records accepted in the target section. -/
theorem quantLoop_eq_foldl (ls : List Str) : ∀ sr reqs,
    quantLoop ls sr reqs = (sectionRecords ls sr).foldl insertReq reqs := by
  induction ls with
  | nil => intro sr reqs; rfl
  | cons line rest ih =>
    intro sr reqs
    simp only [quantLoop, sectionRecords]
    by_cases h1 : strStartsWith line strTYPE = true
    · simp only [h1, if_true]
      exact ih sr reqs
    · simp only [h1, Bool.false_eq_true, if_false]
      by_cases h2 : strStartsWith line strHELP = true
      · simp only [h2, if_true]
        cases sr with
        | true => simp
        | false => simpa using ih _ reqs
      · simp only [h2, Bool.false_eq_true, if_false]
        cases sr with
        | false => simpa using ih false reqs
        | true =>
          simp only [if_true]
          cases hp : parseLine line with
          | none => exact ih true reqs
          | some req =>
            by_cases hn : req.clientName = []
            · simp only [hn, if_true]
              exact ih true reqs
            · simp only [hn, if_false]
              rw [ih true (insertReq reqs req), List.foldl_cons]

/-- The map-update step adds exactly the incoming record's count to the sum
    of all accumulated counts. -/
theorem insertReq_total (rs : List ApiserverReq) (req : ApiserverReq) :
    ((insertReq rs req).map (fun r => r.totalReqCount)).sum =
      (rs.map (fun r => r.totalReqCount)).sum + req.totalReqCount := by
  induction rs with
  | nil => simp [insertReq]
  | cons r t ih =>
    simp only [insertReq]
    by_cases h : r.clientName = req.clientName
    · rw [if_pos h]
      simp only [List.map_cons, List.sum_cons]
      ring
    · rw [if_neg h]
      simp only [List.map_cons, List.sum_cons, ih]
      ring

/-- Folding the map-update step over a record list adds the records' summed
    counts to the accumulator's summed counts. -/
theorem foldl_insertReq_total (recs : List ApiserverReq) :
    ∀ rs : List ApiserverReq,
      ((recs.foldl insertReq rs).map (fun r => r.totalReqCount)).sum =
        (rs.map (fun r => r.totalReqCount)).sum +
          (recs.map (fun r => r.totalReqCount)).sum := by
  induction recs with
  | nil => intro rs; simp
  | cons a t ih =>
    intro rs
    rw [List.foldl_cons, ih (insertReq rs a), insertReq_total]
    simp only [List.map_cons, List.sum_cons]
    ring

/-- Claim C1: for every scrape input, the counts of the aggregated clients
    returned by quantify sum to exactly the counts of all successfully
    parsed, valid records (non-empty clientName) accepted in the target
    metric section of that input. -/
theorem c1_total_conservation (data : Str) :
    ((quantify data).map (fun r => r.totalReqCount)).sum =
      ((sectionRecords (splitChar '\n' data) false).map (fun r => r.totalReqCount)).sum := by
  unfold quantify quantifyLines
  rw [quantLoop_eq_foldl, foldl_insertReq_total]
  simp

/-- Unfolding one step of the client-total lookup. -/
theorem clientTotal_cons (c : Str) (x : ApiserverReq) (rs : List ApiserverReq) :
    clientTotal c (x :: rs) =
      if x.clientName = c then x.totalReqCount else clientTotal c rs := by
  simp only [clientTotal, lookupReq]
  by_cases h : x.clientName = c
  · rw [if_pos h, if_pos h]
  · rw [if_neg h, if_neg h]

/-- Effect of the map-update step on one client's aggregated total. -/
theorem clientTotal_insertReq (c : Str) (rs : List ApiserverReq) (req : ApiserverReq) :
    clientTotal c (insertReq rs req) =
      clientTotal c rs + (if req.clientName = c then req.totalReqCount else 0) := by
  induction rs with
  | nil =>
    rw [show insertReq [] req = [req] from rfl, clientTotal_cons]
    by_cases h : req.clientName = c
    · rw [if_pos h, if_pos h]
      simp [clientTotal, lookupReq]
    · rw [if_neg h, if_neg h]
      simp [clientTotal, lookupReq]
  | cons r t ih =>
    simp only [insertReq]
    by_cases h : r.clientName = req.clientName
    · rw [if_pos h, clientTotal_cons, clientTotal_cons]
      by_cases hc : r.clientName = c
      · have hreq : req.clientName = c := h.symm.trans hc
        simp [hc, hreq]
      · have hreq : ¬ req.clientName = c := fun hx => hc (h.trans hx)
        simp [hc, hreq]
    · rw [if_neg h, clientTotal_cons, clientTotal_cons]
      by_cases hc : r.clientName = c
      · have hreq : ¬ req.clientName = c := fun hx => h (hc.trans hx.symm)
        simp [hc, hreq]
      · rw [if_neg hc, if_neg hc, ih]

/-- Folding the map-update step adds, per client, the summed weights of the
    folded records. -/
theorem clientTotal_foldl (c : Str) (recs : List ApiserverReq) :
    ∀ rs : List ApiserverReq,
      clientTotal c (recs.foldl insertReq rs) =
        clientTotal c rs +
          (recs.map (fun req => if req.clientName = c then req.totalReqCount else 0)).sum := by
  induction recs with
  | nil => intro rs; simp
  | cons a t ih =>
    intro rs
    rw [List.foldl_cons, ih (insertReq rs a), clientTotal_insertReq]
    simp only [List.map_cons, List.sum_cons]
    ring

/-- Splitting the scan at a list boundary: records of the suffix are
    collected only when the prefix finished without the break, continuing in
    the control state the prefix ended in. -/
theorem sectionRecords_append (xs ys : List Str) : ∀ sr : Bool,
    sectionRecords (xs ++ ys) sr =
      sectionRecords xs sr ++
        (match ctl xs sr with
         | none => []
         | some sr2 => sectionRecords ys sr2) := by
  induction xs with
  | nil => intro sr; simp [sectionRecords, ctl]
  | cons line rest ih =>
    intro sr
    simp only [List.cons_append, sectionRecords, ctl]
    by_cases h1 : strStartsWith line strTYPE = true
    · simp only [h1, if_true]
      exact ih sr
    · simp only [h1, Bool.false_eq_true, if_false]
      by_cases h2 : strStartsWith line strHELP = true
      · simp only [h2, if_true]
        cases sr with
        | true => simp
        | false => simpa using ih _
      · simp only [h2, Bool.false_eq_true, if_false]
        cases sr with
        | false => simpa using ih false
        | true =>
          simp only [if_true]
          cases hp : parseLine line with
          | none => exact ih true
          | some req =>
            by_cases hn : req.clientName = []
            · simp only [hn, if_true]
              exact ih true
            · simp only [hn, if_false, List.append_eq]
              rw [ih true, List.cons_append]

/-- Without any `# HELP` line, the scan's control state never changes and the
    break never fires. -/
theorem ctl_noHelp (ls : List Str)
    (h : ∀ l ∈ ls, strStartsWith l strHELP = false) : ∀ sr, ctl ls sr = some sr := by
  induction ls with
  | nil => intro sr; rfl
  | cons line rest ih =>
    intro sr
    have hl : strStartsWith line strHELP = false := h line (List.mem_cons_self _ _)
    have hr : ∀ l ∈ rest, strStartsWith l strHELP = false :=
      fun l hm => h l (List.mem_cons_of_mem _ hm)
    simp only [ctl, hl]
    by_cases h1 : strStartsWith line strTYPE = true
    · simp only [h1, if_true]
      exact ih hr sr
    · simp only [h1, Bool.false_eq_true, if_false]
      exact ih hr sr

/-- Outside the target section (recording off) and with no `# HELP` line,
    the scan accepts no records. -/
theorem sectionRecords_noHelp_false (ls : List Str)
    (h : ∀ l ∈ ls, strStartsWith l strHELP = false) :
    sectionRecords ls false = [] := by
  induction ls with
  | nil => rfl
  | cons line rest ih =>
    have hl : strStartsWith line strHELP = false := h line (List.mem_cons_self _ _)
    have hr : ∀ l ∈ rest, strStartsWith l strHELP = false :=
      fun l hm => h l (List.mem_cons_of_mem _ hm)
    simp only [sectionRecords, hl]
    by_cases h1 : strStartsWith line strTYPE = true
    · simp only [h1, if_true]
      exact ih hr
    · simp only [h1, Bool.false_eq_true, if_false]
      exact ih hr

/-- Inside the target section (recording on) and with no `# HELP` line, the
    scan accepts exactly the per-line valid records, in line order. -/
theorem sectionRecords_noHelp_true (ls : List Str)
    (h : ∀ l ∈ ls, strStartsWith l strHELP = false) :
    sectionRecords ls true = ls.filterMap dataRecord := by
  induction ls with
  | nil => rfl
  | cons line rest ih =>
    have hl : strStartsWith line strHELP = false := h line (List.mem_cons_self _ _)
    have hr : ∀ l ∈ rest, strStartsWith l strHELP = false :=
      fun l hm => h l (List.mem_cons_of_mem _ hm)
    simp only [sectionRecords, hl, List.filterMap_cons, dataRecord]
    by_cases h1 : strStartsWith line strTYPE = true
    · simp only [h1, if_true, Bool.false_eq_true, if_false]
      exact ih hr
    · simp only [h1, Bool.false_eq_true, if_false, if_true]
      cases hp : parseLine line with
      | none => exact ih hr
      | some req =>
        by_cases hn : req.clientName = []
        · simp only [hn, if_true]
          exact ih hr
        · simp only [hn, if_false]
          rw [ih hr]

/-- Claim C4: once the target section has started (the scan of the preceding
    lines ends with recording on and no break), the next `# HELP` line — for
    any metric family, including the target one — stops the scan of the whole
    input: the result is the same as if the input ended at that line, no
    matter what follows it. -/
theorem c4_help_stops_scan (data : Str) (pre suffix : List Str) (h : Str)
    (hsplit : splitChar '\n' data = pre ++ h :: suffix)
    (hh : strStartsWith h strHELP = true)
    (hctl : ctl pre false = some true) :
    quantify data = quantifyLines (pre ++ [h]) := by
  have hsec : ∀ tail : List Str, sectionRecords (h :: tail) true = [] := by
    intro tail
    simp [sectionRecords, help_not_type h hh, hh]
  unfold quantify quantifyLines
  rw [hsplit, quantLoop_eq_foldl, quantLoop_eq_foldl,
      sectionRecords_append pre (h :: suffix), sectionRecords_append pre [h]]
  simp only [hctl, hsec]

/-- Claim C4 (witness): with the target section open, a `# HELP` line for
    another family discards everything after it, including a reopened target
    section containing a valid data line. -/
theorem c4_help_stops_scan_witness :
    quantify (chars ("# HELP apiserver_request_count x\n# HELP other_metric x\n# HELP apiserver_request_count x\napiserver_request_count\x7bclient=b\x7d 9")) =
      quantifyLines ([chars ("# HELP apiserver_request_count x")] ++ [chars ("# HELP other_metric x")]) :=
  c4_help_stops_scan _
    [chars ("# HELP apiserver_request_count x")]
    [chars ("# HELP apiserver_request_count x"), chars ("apiserver_request_count\x7bclient=b\x7d 9")]
    (chars ("# HELP other_metric x"))
    (by rfl) (by rfl) (by rfl)

/-- Claim C6: permuting a `# HELP`-free block of lines of the scrape input —
    in particular any reordering of the target section's data lines, whether
    they belong to different clients or not — leaves every client's
    aggregated totalRequestCount unchanged. -/
theorem c6_shuffle_lines_same_totals (data data2 : Str) (c : Str)
    (pre post ls ls2 : List Str)
    (hsplit : splitChar '\n' data = pre ++ ls ++ post)
    (hsplit2 : splitChar '\n' data2 = pre ++ ls2 ++ post)
    (hperm : ls.Perm ls2)
    (hno : ∀ l ∈ ls, strStartsWith l strHELP = false) :
    clientTotal c (quantify data) = clientTotal c (quantify data2) := by
  have hno2 : ∀ l ∈ ls2, strStartsWith l strHELP = false :=
    fun l hl => hno l (hperm.symm.subset hl)
  unfold quantify quantifyLines
  rw [hsplit, hsplit2, quantLoop_eq_foldl, quantLoop_eq_foldl,
      clientTotal_foldl, clientTotal_foldl]
  congr 1
  rw [List.append_assoc pre ls post, List.append_assoc pre ls2 post,
      sectionRecords_append pre (ls ++ post), sectionRecords_append pre (ls2 ++ post)]
  cases hctl : ctl pre false with
  | none => simp only [hctl]
  | some sr =>
    simp only [hctl, List.map_append, List.sum_append]
    congr 1
    rw [sectionRecords_append ls post, sectionRecords_append ls2 post,
        ctl_noHelp ls hno, ctl_noHelp ls2 hno2]
    simp only [List.map_append, List.sum_append]
    congr 1
    cases sr with
    | false =>
      rw [sectionRecords_noHelp_false ls hno, sectionRecords_noHelp_false ls2 hno2]
    | true =>
      rw [sectionRecords_noHelp_true ls hno, sectionRecords_noHelp_true ls2 hno2]
      exact List.Perm.sum_eq ((hperm.filterMap dataRecord).map _)

/-- Claim C6 (witness): swapping the two data lines of two different clients
    leaves client x's aggregated total unchanged. -/
theorem c6_shuffle_lines_same_totals_witness :
    clientTotal (chars ("x"))
        (quantify (chars ("# HELP apiserver_request_count h\napiserver_request_count\x7bclient=x\x7d 1\napiserver_request_count\x7bclient=y\x7d 2"))) =
      clientTotal (chars ("x"))
        (quantify (chars ("# HELP apiserver_request_count h\napiserver_request_count\x7bclient=y\x7d 2\napiserver_request_count\x7bclient=x\x7d 1"))) :=
  c6_shuffle_lines_same_totals _ _ (chars ("x"))
    [chars ("# HELP apiserver_request_count h")] []
    [chars ("apiserver_request_count\x7bclient=x\x7d 1"), chars ("apiserver_request_count\x7bclient=y\x7d 2")]
    [chars ("apiserver_request_count\x7bclient=y\x7d 2"), chars ("apiserver_request_count\x7bclient=x\x7d 1")]
    (by rfl) (by rfl)
    (List.Perm.swap (chars ("apiserver_request_count\x7bclient=y\x7d 2"))
      (chars ("apiserver_request_count\x7bclient=x\x7d 1")) [])
    (by decide)

/-- Claim C9: the handoff channel is unbuffered, so once the handler's select
    has taken the timeout branch the goroutine's single send can never
    complete: the state in which the result became ready only after the
    timeout is reachable, and from it no reachable state has the send done —
    the side-fetch task is blocked forever, contrary to the claim. -/
theorem c9_send_blocks_after_timeout :
    Relation.ReflTransGen HandoffStep handoffInit handoffBlocked ∧
    ∀ s, Relation.ReflTransGen HandoffStep handoffBlocked s →
      s.sender ≠ SenderState.sent := by
  constructor
  · exact Relation.ReflTransGen.tail
      (Relation.ReflTransGen.single (HandoffStep.timeout _ _))
      (HandoffStep.finishCompute _ _)
  · intro s hs
    have hfix : ∀ t, Relation.ReflTransGen HandoffStep handoffBlocked t →
        t = handoffBlocked := by
      intro t ht
      induction ht with
      | refl => rfl
      | tail h1 h2 ih =>
        subst ih
        cases h2 with
        | bufferedSend r b hb => exact absurd hb (by decide)
    rw [hfix s hs]
    simp [handoffBlocked]

/-- Claim C9 (witness): in the blocked state itself the send has not
    completed. -/
theorem c9_send_blocks_after_timeout_witness :
    handoffBlocked.sender ≠ SenderState.sent :=
  c9_send_blocks_after_timeout.2 handoffBlocked Relation.ReflTransGen.refl
